import Mathlib

/-!
Verification of the heading-delimited section extractor and the batch scraping
driver of `src/notebook/scraping_idx.py` (class `IDXSeleniumScraper`).

The document tree handed to `_extract_section` by BeautifulSoup is embedded as
an inductive tree of tag nodes and text nodes.  The extractor, the per-company
scrape, the error record and the batch loop are translated from the source;
the page fetch (Selenium navigation + wait + parse) is an external collaborator
and enters as a function parameter `fetch : String → Except String Node`.
-/

namespace StocksScraping

/-- A node of the parsed HTML document: either a text node (a BeautifulSoup
`NavigableString`) or a tag element with a name and an ordered list of
children. -/
inductive Node where
  | text (s : String) : Node
  | elem (tag : String) (children : List Node) : Node

/-- Lowercasing of a Python string (`str.lower()`), character by character. -/
def strLower (s : String) : String :=
  String.mk (s.data.map Char.toLower)

/-- Python substring containment: `pat in hay`. -/
def strContainsSub (hay pat : String) : Bool :=
  decide (pat.data <:+: hay.data)

/-- The predicate of `soup.find(string=lambda text: text and keyword.lower() in
text.lower())`: the text node is non-empty and contains the lowercased keyword
as a substring. -/
def textMatches (keyword s : String) : Bool :=
  (s != "") && strContainsSub (strLower s) (strLower keyword)

mutual

/-- `get_text(strip=False)` of a node: concatenation of all descendant text,
in document order, preserving whitespace. -/
def Node.getText : Node → String
  | .text s => s
  | .elem _ cs => getTextList cs

/-- Concatenated text of a list of sibling nodes. -/
def getTextList : List Node → String
  | [] => ""
  | c :: rest => c.getText ++ getTextList rest

end

/-- Ancestor context of a node: for each proper ancestor element, from the
nearest outward, its tag name and the list of its following siblings inside
its own parent.  This is what `find_parent` and `find_next_siblings` read. -/
abbrev Ctx := List (String × List Node)

mutual

/-- Search within one subtree: `sibs` are the following siblings of the node
inside its own parent and `ctx` is the ancestor context of the node itself.
A text node is the match when the predicate holds; an element contributes its
descendants, with itself pushed onto the ancestor context. -/
def findInNode (keyword : String) : Node → List Node → Ctx → Option (String × Ctx)
  | Node.text s, _, ctx =>
      if textMatches keyword s then some (s, ctx) else none
  | Node.elem tag cs, sibs, ctx =>
      findInChildren keyword ((tag, sibs) :: ctx) cs

/-- Depth-first, document-order search over a list of sibling subtrees for the
first text node satisfying the match predicate; returns the matched text
together with the ancestor context of the matched node.  This embeds
`soup.find(string=...)` combined with the parent chain of the found string. -/
def findInChildren (keyword : String) (ctx : Ctx) : List Node → Option (String × Ctx)
  | [] => none
  | c :: rest =>
      match findInNode keyword c rest ctx with
      | some r => some r
      | none => findInChildren keyword ctx rest

end

/-- Search of the whole document (`soup.find(string=...)`): scans the
descendants of the root, in document order. -/
def findCtx (keyword : String) : Node → Option (String × Ctx)
  | .text _ => none
  | .elem tag cs => findInChildren keyword [(tag, [])] cs

/-- `section_header.find_parent(["h2", "h3", "div"])`: the nearest ancestor
whose tag is one of the structural kinds, together with its following
siblings; `none` when no such ancestor exists. -/
def findStructParent : Ctx → Option (String × List Node)
  | [] => none
  | (tag, sibs) :: rest =>
      if tag = "h2" ∨ tag = "h3" ∨ tag = "div" then some (tag, sibs)
      else findStructParent rest

/-- The collection loop `for sibling in parent.find_next_siblings()`:
`find_next_siblings()` yields only tag siblings (text siblings are skipped);
the loop stops at the first `h2`/`h3` sibling, and appends
`sibling.get_text(strip=False) + " | "` for every sibling whose text is
non-empty (`if text:`). -/
def collectSection : List Node → List String
  | [] => []
  | Node.text _ :: rest => collectSection rest
  | Node.elem tag cs :: rest =>
      if tag = "h2" ∨ tag = "h3" then []
      else
        let t := (Node.elem tag cs).getText
        if t != "" then (t ++ " | ") :: collectSection rest
        else collectSection rest

/-- Characters stripped by Python `str.strip()`. -/
def pyIsSpace (c : Char) : Bool :=
  c = ' ' || c = '\t' || c = '\n' || c = '\r' || c = Char.ofNat 11 || c = Char.ofNat 12

/-- Python `str.strip()`: remove leading and trailing whitespace. -/
def pyStrip (s : String) : String :=
  String.mk (((s.data.dropWhile pyIsSpace).reverse.dropWhile pyIsSpace).reverse)

/-- Python `sep.join(parts)`. -/
def joinChars (sep : List Char) : List (List Char) → List Char
  | [] => []
  | [x] => x
  | x :: y :: rest => x ++ sep ++ joinChars sep (y :: rest)

/-- Python `sep.join(parts)`, on strings. -/
def pyJoin (sep : String) (parts : List String) : String :=
  String.mk (joinChars sep.data (parts.map String.data))

/-- Python `s.split("  ")`: cut at each non-overlapping occurrence of two
consecutive spaces, scanning left to right; `acc` holds the reversed current
piece. -/
def splitDoubleSpaceAux : List Char → List Char → List (List Char)
  | [], acc => [acc.reverse]
  | [c], acc => [(c :: acc).reverse]
  | c1 :: c2 :: rest, acc =>
      if c1 = ' ' ∧ c2 = ' ' then acc.reverse :: splitDoubleSpaceAux rest []
      else splitDoubleSpaceAux (c2 :: rest) (c1 :: acc)

/-- Python `s.split("  ")`, on strings. -/
def splitDoubleSpace (s : String) : List String :=
  (splitDoubleSpaceAux s.data []).map String.mk

/-- Post-processing of the accumulated fragments:
`combined_text = "|".join(section_text).strip()` followed by
`" | ".join(filter(None, combined_text.split("  ")))`. -/
def postProcess (fragments : List String) : String :=
  let combined := pyStrip (pyJoin "|" fragments)
  pyJoin " | " ((splitDoubleSpace combined).filter (fun p => p != ""))

/-- A single-quote character, as a string. -/
def sq : String := String.singleton (Char.ofNat 39)

/-- The string the `except` branch produces when `find_parent` returned `None`
and the code then calls `None.find_next_siblings()`: Python raises
`AttributeError` and `_extract_section` returns `"Error: " + str(e)`. -/
def noneTypeError : String :=
  "Error: " ++ sq ++ "NoneType" ++ sq ++ " object has no attribute " ++ sq
    ++ "find_next_siblings" ++ sq

/-- Test whether a string begins with the error tag `"Error: "`. -/
def errorTagged (s : String) : Bool :=
  List.isPrefixOf ("Error: ").data s.data

/-- `IDXSeleniumScraper._extract_section(soup, keyword)`.  The only statement
inside the `try` block that can raise is `parent.find_next_siblings()` when
`find_parent` returned `None`; that path is caught and stringified. -/
def extract_section (soup : Node) (keyword : String) : String :=
  match findCtx keyword soup with
  | none => "Not found"
  | some (_, ctx) =>
      match findStructParent ctx with
      | none => noneTypeError
      | some (_, sibs) => postProcess (collectSection sibs)

mutual

/-- Text contents of the text nodes in the subtree of one node, in document
order (the node itself included when it is a text node). -/
def nodeTexts : Node → List String
  | .text s => [s]
  | .elem _ cs => textList cs

/-- Text contents of the text nodes under a list of sibling subtrees, in
document order. -/
def textList : List Node → List String
  | [] => []
  | c :: rest => nodeTexts c ++ textList rest

end

/-- Text contents of all text nodes of the document, in document order: the
descendants of the root, which is what `soup.find(string=...)` scans. -/
def textNodes : Node → List String
  | .text _ => []
  | .elem _ cs => textList cs

/-- Match predicate as the claims word it: the lowercase form of the text
contains the lowercase keyword as a substring. -/
def specMatches (keyword s : String) : Bool :=
  strContainsSub (strLower s) (strLower keyword)

/-- Tag test as the claim words it: the sibling is one of the two heading
levels. -/
def sibIsHeading : Node → Bool
  | .text _ => false
  | .elem tag _ => tag = "h2" || tag = "h3"

/-- Collection loop as the claim words it: iterate the direct following
siblings in document order, stop at the first sibling whose tag is one of the
two heading levels, and for each earlier sibling append its
whitespace-preserving visible text plus the trailing delimiter. -/
def claimCollect : List Node → List String
  | [] => []
  | sib :: rest =>
      if sibIsHeading sib then []
      else (sib.getText ++ " | ") :: claimCollect rest

/-- Extraction algorithm exactly as the claim words it, applied to the
anchor siblings: collect, join with a bar, strip, split on two consecutive
spaces, rejoin the non-empty pieces. -/
def claimAlgorithm (sibs : List Node) : String :=
  pyJoin " | "
    ((splitDoubleSpace (pyStrip (pyJoin "|" (claimCollect sibs)))).filter
      (fun p => p != ""))

/-- Collection loop as the amended claim words it: iterate only the element
siblings (text siblings are not visited), stop at the first element whose tag
is one of the two heading levels, and append the text plus the trailing
delimiter only when the extracted text is non-empty. -/
def amendedCollect : List Node → List String
  | [] => []
  | Node.text _ :: rest => amendedCollect rest
  | Node.elem tag cs :: rest =>
      if tag = "h2" ∨ tag = "h3" then []
      else if (Node.elem tag cs).getText != "" then
        ((Node.elem tag cs).getText ++ " | ") :: amendedCollect rest
      else amendedCollect rest

/-- Extraction algorithm as the amended claim words it. -/
def amendedAlgorithm (sibs : List Node) : String :=
  pyJoin " | "
    ((splitDoubleSpace (pyStrip (pyJoin "|" (amendedCollect sibs)))).filter
      (fun p => p != ""))

/-- Running the extractor twice in sequence on the same tree and keyword;
the tree is immutable in the embedding because every operation the source
performs on it is read-only. -/
def extract_twice (soup : Node) (keyword : String) : String × String :=
  let first := extract_section soup keyword
  let second := extract_section soup keyword
  (first, second)

/-- One output row of the batch driver (`data` dict in `scrape_company` /
`_get_error_dict`). -/
structure Record where
  Emiten_Code : String
  URL : String
  Status : String
  Profile : String
  Director : String
  Comissioners : String
  Audit_Committee : String
  Shareholders : String
  Subsidiary : String
  Public_Accountant : String
deriving DecidableEq

/-- The URL built by `scrape_company`. -/
def companyUrl (emiten_code : String) : String :=
  "https://www.idx.co.id/en/listed-companies/company-profiles/" ++ emiten_code

/-- `IDXSeleniumScraper._get_error_dict`. -/
def get_error_dict (emiten_code url error : String) : Record :=
  { Emiten_Code := emiten_code
    URL := url
    Status := "Error: " ++ error
    Profile := "N/A"
    Director := "N/A"
    Comissioners := "N/A"
    Audit_Committee := "N/A"
    Shareholders := "N/A"
    Subsidiary := "N/A"
    Public_Accountant := "N/A" }

/-- `IDXSeleniumScraper.scrape_company`.  The page fetch (driver setup,
navigation, bounded wait for the body element, parse) is an external
collaborator, embedded as `fetch`; a fetch fault is the `except` branch. -/
def scrape_company (fetch : String → Except String Node) (emiten_code : String) :
    Record :=
  match fetch emiten_code with
  | .ok soup =>
      { Emiten_Code := emiten_code
        URL := companyUrl emiten_code
        Status := "Success"
        Profile := extract_section soup "Profile"
        Director := extract_section soup "Director"
        Comissioners := extract_section soup "Comissioners"
        Audit_Committee := extract_section soup "Audit Committee"
        Shareholders := extract_section soup "Shareholders"
        Subsidiary := extract_section soup "Subsidiary"
        Public_Accountant := extract_section soup "Public Accountant" }
  | .error e => get_error_dict emiten_code (companyUrl emiten_code) e

/-- Observable events of a batch run: the per-identifier processing step
(which sets up the browser session when absent), the fixed pacing pause
(`time.sleep(delay)`), and the session release (`driver.quit()`). -/
inductive Ev where
  | process (emiten : String) : Ev
  | sleep (delay : Nat) : Ev
  | quit : Ev
deriving DecidableEq

/-- State threaded through the loop of `scrape_multiple`: whether
`self.driver` is set, the events emitted so far, the accumulated `results`,
and a pending fault that escaped the per-identifier handling. -/
structure BatchState where
  driverActive : Bool
  events : List Ev
  results : List Record
  fault : Option String

/-- The `for i, emiten in enumerate(emiten_list, 1)` loop of
`scrape_multiple`.  The loop body is abstract (`body`) so that a fault
escaping the per-identifier handling can be modelled; invoking the body marks
the driver active, since `scrape_company` begins by setting up the session.
On a fault the loop stops immediately (the exception unwinds to the
`finally`); otherwise the record is appended and, when `i < n`, the pacing
sleep runs before the next iteration. -/
def scrape_multiple_loop (body : String → Except String Record) (delay n : Nat) :
    List String → Nat → BatchState → BatchState
  | [], _, st => st
  | emiten :: rest, i, st =>
      let st1 : BatchState :=
        { st with driverActive := true, events := st.events ++ [Ev.process emiten] }
      match body emiten with
      | .error e => { st1 with fault := some e }
      | .ok data =>
          let st2 : BatchState := { st1 with results := st1.results ++ [data] }
          let st3 : BatchState :=
            if i < n then { st2 with events := st2.events ++ [Ev.sleep delay] } else st2
          scrape_multiple_loop body delay n rest (i + 1) st3

/-- `IDXSeleniumScraper.scrape_multiple` with an abstract loop body: run the
loop from an inactive driver, then the `finally` block
(`if self.driver: self.driver.quit()`), then either return the collected
rows or propagate the fault. -/
def run_scrape_multiple (body : String → Except String Record) (delay : Nat)
    (emiten_list : List String) : List Ev × Except String (List Record) :=
  let st := scrape_multiple_loop body delay emiten_list.length emiten_list 1
    ⟨false, [], [], none⟩
  let evs := st.events ++ (if st.driverActive then [Ev.quit] else [])
  match st.fault with
  | some e => (evs, .error e)
  | none => (evs, .ok st.results)

/-- The loop body as written in the source: `scrape_company` catches every
exception itself, so the body always returns a record. -/
def scrape_body (fetch : String → Except String Node) (emiten : String) :
    Except String Record :=
  .ok (scrape_company fetch emiten)

/-- `IDXSeleniumScraper.scrape_multiple` as written in the source. -/
def scrape_multiple (fetch : String → Except String Node) (delay : Nat)
    (emiten_list : List String) : List Ev × Except String (List Record) :=
  run_scrape_multiple (scrape_body fetch) delay emiten_list

/-- Events emitted by the loop alone, starting at index `i` with `n` the
total count: one processing step per identifier, with the pacing sleep after
every identifier whose index is below `n`. -/
def pacedEvents (delay n : Nat) : List String → Nat → List Ev
  | [], _ => []
  | emiten :: rest, i =>
      Ev.process emiten ::
        ((if i < n then [Ev.sleep delay] else []) ++ pacedEvents delay n rest (i + 1))

/-- A document whose matched text node sits under a `div` anchor that is
followed by an element with empty text and then an element with text. -/
def cexDocEmptySibling : Node :=
  .elem "html" [.elem "div" [.text "Profile"], .elem "p" [], .elem "p" [.text "Data"]]

/-- The following siblings of the anchor inside `cexDocEmptySibling`. -/
def cexSiblings : List Node := [.elem "p" [], .elem "p" [.text "Data"]]

/-- A document whose matched text node has no `h2`/`h3`/`div` ancestor. -/
def cexDocNoAnchor : Node := .elem "html" [.elem "p" [.text "Profile"]]

/-- A document containing no text node matching the keyword `"Profile"`. -/
def noMatchDoc : Node := .elem "html" [.elem "div" [.text "Hello"]]

/-- A loop body that behaves normally except that identifier `"B"` raises an
exception escaping the per-identifier handling, as in the resource scenario. -/
def faultingBody (emiten : String) : Except String Record :=
  if emiten = "B" then .error "boom"
  else .ok (get_error_dict emiten (companyUrl emiten) "x")

/-- A page fetcher whose every navigation times out. -/
def timeoutFetch : String → Except String Node := fun _ => .error "Timeout"

/-- Claim C1: for every document tree and every keyword, the section extractor
never raises to its caller: its result is always a string, and every outcome
is either real extracted content (the post-processed sibling collection of a
located anchor), the sentinel `"Not found"`, or a string beginning with
`"Error: "`. -/
theorem extract_section_three_outcomes (soup : Node) (keyword : String) :
    extract_section soup keyword = "Not found" ∨
    errorTagged (extract_section soup keyword) = true ∨
    (∃ s ctx tag sibs,
      findCtx keyword soup = some (s, ctx) ∧
      findStructParent ctx = some (tag, sibs) ∧
      extract_section soup keyword = postProcess (collectSection sibs)) := by
  rcases h1 : findCtx keyword soup with _ | ⟨s, ctx⟩
  · left
    simp [extract_section, h1]
  · rcases h2 : findStructParent ctx with _ | ⟨tag, sibs⟩
    · right; left
      have he : extract_section soup keyword = noneTypeError := by
        simp [extract_section, h1, h2]
      rw [he]
      decide
    · right; right
      exact ⟨s, ctx, tag, sibs, rfl, h2, by simp [extract_section, h1, h2]⟩

/-- Claim C3, counterexample: in `cexDocNoAnchor` the text node `"Profile"`
matches the keyword but has no ancestor among the structural tag kinds, and
the extractor does not return the sentinel `"Not found"` (it returns the
stringified `AttributeError` instead). -/
theorem no_anchor_not_found_cex :
    findCtx "Profile" cexDocNoAnchor = some ("Profile", [("p", []), ("html", [])]) ∧
    findStructParent [("p", []), ("html", [])] = none ∧
    extract_section cexDocNoAnchor "Profile" ≠ "Not found" := by
  refine ⟨rfl, rfl, ?_⟩
  decide

/-- Claim C3, amended: for every document in which some text node matches the
keyword but the matched node has no ancestor among the structural tag kinds,
the extractor degrades gracefully and returns the stringified attribute fault,
a string beginning with `"Error: "`, rather than raising. -/
theorem extract_section_no_anchor_error (soup : Node) (keyword s : String)
    (ctx : Ctx) (h1 : findCtx keyword soup = some (s, ctx))
    (h2 : findStructParent ctx = none) :
    extract_section soup keyword = noneTypeError ∧
    errorTagged (extract_section soup keyword) = true := by
  have he : extract_section soup keyword = noneTypeError := by
    simp [extract_section, h1, h2]
  rw [he]
  exact ⟨rfl, by decide⟩

/-- Witness for `extract_section_no_anchor_error` at `cexDocNoAnchor`. -/
theorem extract_section_no_anchor_error_witness :
    findCtx "Profile" cexDocNoAnchor = some ("Profile", [("p", []), ("html", [])]) ∧
    findStructParent [("p", []), ("html", [])] = none ∧
    (extract_section cexDocNoAnchor "Profile" = noneTypeError ∧
      errorTagged (extract_section cexDocNoAnchor "Profile") = true) :=
  ⟨rfl, rfl,
    extract_section_no_anchor_error cexDocNoAnchor "Profile" "Profile"
      [("p", []), ("html", [])] rfl rfl⟩

/-- Claim C2, counterexample: in `cexDocEmptySibling` the keyword matches and
an anchor is found whose following siblings are `cexSiblings`, yet the
extractor output differs from the algorithm exactly as the claim words it:
the claimed algorithm appends the delimiter even for a sibling whose
extracted text is empty, while the code skips such a sibling. -/
theorem claim_algorithm_cex :
    findCtx "Profile" cexDocEmptySibling =
      some ("Profile", [("div", cexSiblings), ("html", [])]) ∧
    findStructParent [("div", cexSiblings), ("html", [])] =
      some ("div", cexSiblings) ∧
    extract_section cexDocEmptySibling "Profile" ≠ claimAlgorithm cexSiblings := by
  refine ⟨rfl, rfl, ?_⟩
  decide

/-- Helper: the collection loop of the source equals the collection loop as
the amended claim words it. -/
theorem collectSection_eq_amendedCollect (sibs : List Node) :
    collectSection sibs = amendedCollect sibs := by
  induction sibs with
  | nil => rfl
  | cons c rest ih =>
    cases c with
    | text s => simpa [collectSection, amendedCollect] using ih
    | elem tag cs =>
      by_cases h : tag = "h2" ∨ tag = "h3"
      · simp [collectSection, amendedCollect, h]
      · by_cases ht : (Node.elem tag cs).getText = ""
        · simp [collectSection, amendedCollect, h, ht, ih]
        · simp [collectSection, amendedCollect, h, ht, ih]

/-- Claim C2, amended: for every document in which a text node matches the
keyword and an anchor is found, the extractor output equals the claimed
algorithm amended in two points forced by the code: only element siblings are
visited, and a fragment plus delimiter is appended only when the extracted
text is non-empty. -/
theorem extract_section_amended_algorithm (soup : Node) (keyword s tag : String)
    (ctx : Ctx) (sibs : List Node)
    (h1 : findCtx keyword soup = some (s, ctx))
    (h2 : findStructParent ctx = some (tag, sibs)) :
    extract_section soup keyword = amendedAlgorithm sibs := by
  have he : extract_section soup keyword = postProcess (collectSection sibs) := by
    simp [extract_section, h1, h2]
  rw [he, postProcess, amendedAlgorithm, collectSection_eq_amendedCollect]

/-- Witness for `extract_section_amended_algorithm` at `cexDocEmptySibling`. -/
theorem extract_section_amended_algorithm_witness :
    findCtx "Profile" cexDocEmptySibling =
      some ("Profile", [("div", cexSiblings), ("html", [])]) ∧
    findStructParent [("div", cexSiblings), ("html", [])] =
      some ("div", cexSiblings) ∧
    extract_section cexDocEmptySibling "Profile" = amendedAlgorithm cexSiblings :=
  ⟨rfl, rfl,
    extract_section_amended_algorithm cexDocEmptySibling "Profile" "Profile" "div"
      [("div", cexSiblings), ("html", [])] cexSiblings rfl rfl⟩

/-- Claim C5: calling the extractor twice with the same tree and keyword
yields identical output; the input tree is immutable in the embedding, every
source operation on it being read-only, so the second call receives the same
tree as the first. -/
theorem extract_twice_consistent (soup : Node) (keyword : String) :
    (extract_twice soup keyword).1 = (extract_twice soup keyword).2 ∧
    (extract_twice soup keyword).2 = extract_section soup keyword :=
  ⟨rfl, rfl⟩

/-- Claim C10: a following sibling element whose extracted visible text is the
empty string contributes nothing: no fragment and no delimiter is appended to
the accumulator for that sibling. -/
theorem collectSection_empty_text_sibling (tag : String) (cs rest : List Node)
    (h2 : tag ≠ "h2") (h3 : tag ≠ "h3")
    (ht : (Node.elem tag cs).getText = "") :
    collectSection (Node.elem tag cs :: rest) = collectSection rest := by
  simp [collectSection, h2, h3, ht]

/-- Witness for `collectSection_empty_text_sibling` with a childless `p`
element followed by a `p` element with text. -/
theorem collectSection_empty_text_sibling_witness :
    ("p" : String) ≠ "h2" ∧ ("p" : String) ≠ "h3" ∧
    (Node.elem "p" []).getText = "" ∧
    collectSection [Node.elem "p" [], Node.elem "p" [Node.text "X"]] =
      collectSection [Node.elem "p" [Node.text "X"]] :=
  ⟨by decide, by decide, rfl,
    collectSection_empty_text_sibling "p" [] [Node.elem "p" [Node.text "X"]]
      (by decide) (by decide) rfl⟩

mutual

/-- Helper: the text matched inside one subtree is the first text node of that
subtree, in document order, satisfying the match predicate. -/
theorem findInNode_fst (keyword : String) :
    (c : Node) → (sibs : List Node) → (ctx : Ctx) →
    (findInNode keyword c sibs ctx).map Prod.fst =
      (nodeTexts c).find? (textMatches keyword)
  | .text s, _, ctx => by
      simp only [findInNode, nodeTexts, List.find?]
      cases h : textMatches keyword s <;> simp [h]
  | .elem tag cs, sibs, ctx => by
      simpa only [findInNode, nodeTexts] using
        findInChildren_fst keyword ((tag, sibs) :: ctx) cs

/-- Helper: the text matched across sibling subtrees is the first text node,
in document order, satisfying the match predicate. -/
theorem findInChildren_fst (keyword : String) :
    (ctx : Ctx) → (cs : List Node) →
    (findInChildren keyword ctx cs).map Prod.fst =
      (textList cs).find? (textMatches keyword)
  | _, [] => by simp [findInChildren, textList]
  | ctx, c :: rest => by
      have h1 := findInNode_fst keyword c rest ctx
      have h2 := findInChildren_fst keyword ctx rest
      simp only [findInChildren, textList, List.find?_append, ← h1, ← h2]
      cases findInNode keyword c rest ctx <;> simp [Option.or]

end

/-- Helper: for a non-empty keyword the source predicate (which also demands
a non-empty text node) agrees with the predicate as the claim words it. -/
theorem textMatches_eq_specMatches (keyword : String) (hkw : keyword ≠ "")
    (s : String) : textMatches keyword s = specMatches keyword s := by
  by_cases hs : s = ""
  · subst hs
    have hdata : keyword.data ≠ [] := by
      intro h
      apply hkw
      cases keyword
      simp only at h
      simp [h]
    have hinf : ¬ ((strLower keyword).data <:+: (strLower "").data) := by
      simp only [strLower]
      intro hcon
      have := List.eq_nil_of_infix_nil hcon
      exact hdata (by simpa using this)
    simp [textMatches, specMatches, strContainsSub, hinf]
  · have hne : (s != "") = true := by simpa using hs
    simp [textMatches, specMatches, hne]

/-- Claim C4: for a non-empty keyword, the match is the first text node in
document order whose lowercase form contains the lowercase keyword, and when
no text node matches the extractor returns exactly `"Not found"`. -/
theorem extract_section_match_rule (soup : Node) (keyword : String)
    (hkw : keyword ≠ "") :
    (findCtx keyword soup).map Prod.fst =
      (textNodes soup).find? (specMatches keyword) ∧
    ((textNodes soup).find? (specMatches keyword) = none →
      extract_section soup keyword = "Not found") := by
  have hfun : textMatches keyword = specMatches keyword :=
    funext (textMatches_eq_specMatches keyword hkw)
  have hmain : (findCtx keyword soup).map Prod.fst =
      (textNodes soup).find? (textMatches keyword) := by
    cases soup with
    | text s => simp [findCtx, textNodes, textList]
    | elem tag cs =>
      simpa [findCtx, textNodes] using findInChildren_fst keyword [(tag, [])] cs
  rw [hfun] at hmain
  refine ⟨hmain, ?_⟩
  intro hnone
  rw [hnone] at hmain
  have hfc : findCtx keyword soup = none := by
    cases hv : findCtx keyword soup
    · rfl
    · rw [hv] at hmain; simp at hmain
  simp [extract_section, hfc]

/-- Witness for `extract_section_match_rule` at `noMatchDoc`, which has no
text node containing `"Profile"`. -/
theorem extract_section_match_rule_witness :
    ("Profile" : String) ≠ "" ∧
    ((findCtx "Profile" noMatchDoc).map Prod.fst =
        (textNodes noMatchDoc).find? (specMatches "Profile") ∧
      ((textNodes noMatchDoc).find? (specMatches "Profile") = none →
        extract_section noMatchDoc "Profile" = "Not found")) :=
  ⟨by decide, extract_section_match_rule noMatchDoc "Profile" (by decide)⟩

/-- Helper: with the loop body as written in the source (which never raises),
the loop marks the driver active as soon as one identifier is processed,
emits the paced event sequence, appends one record per identifier in order,
and leaves the fault slot untouched. -/
theorem scrape_multiple_loop_ok (fetch : String → Except String Node)
    (delay n : Nat) :
    ∀ (ids : List String) (i : Nat) (st : BatchState),
      scrape_multiple_loop (scrape_body fetch) delay n ids i st =
        ⟨if ids.isEmpty then st.driverActive else true,
         st.events ++ pacedEvents delay n ids i,
         st.results ++ ids.map (scrape_company fetch),
         st.fault⟩ := by
  intro ids
  induction ids with
  | nil =>
    intro i st
    simp [scrape_multiple_loop, pacedEvents]
  | cons e rest ih =>
    intro i st
    by_cases hin : i < n
    · simp [scrape_multiple_loop, scrape_body, hin, ih, pacedEvents]
    · simp [scrape_multiple_loop, scrape_body, hin, ih, pacedEvents]

/-- Helper: the full batch run with the source loop body: events are the paced
sequence followed by the session release (absent only for an empty input
list), and the outcome is one record per identifier, in order. -/
theorem scrape_multiple_ok (fetch : String → Except String Node) (delay : Nat)
    (ids : List String) :
    scrape_multiple fetch delay ids =
      (pacedEvents delay ids.length ids 1 ++ (if ids.isEmpty then [] else [Ev.quit]),
       .ok (ids.map (scrape_company fetch))) := by
  cases ids with
  | nil =>
    simp [scrape_multiple, run_scrape_multiple, scrape_multiple_loop_ok, pacedEvents]
  | cons e rest =>
    simp [scrape_multiple, run_scrape_multiple, scrape_multiple_loop_ok]

/-- Claim C6: when the page fetch faults for an identifier, the produced
record is exactly the fabricated error record: status `"Error: <message>"`
and all seven section fields `"N/A"`; the extractor result appears nowhere in
it, and the batch still yields one row per identifier afterwards. -/
theorem scrape_company_fetch_fault (fetch : String → Except String Node)
    (emiten_code msg : String) (rest : List String) (delay : Nat)
    (h : fetch emiten_code = .error msg) :
    scrape_company fetch emiten_code =
      get_error_dict emiten_code (companyUrl emiten_code) msg ∧
    (scrape_company fetch emiten_code).Status = "Error: " ++ msg ∧
    (scrape_company fetch emiten_code).Profile = "N/A" ∧
    (scrape_company fetch emiten_code).Director = "N/A" ∧
    (scrape_company fetch emiten_code).Comissioners = "N/A" ∧
    (scrape_company fetch emiten_code).Audit_Committee = "N/A" ∧
    (scrape_company fetch emiten_code).Shareholders = "N/A" ∧
    (scrape_company fetch emiten_code).Subsidiary = "N/A" ∧
    (scrape_company fetch emiten_code).Public_Accountant = "N/A" ∧
    (scrape_multiple fetch delay (emiten_code :: rest)).2 =
      .ok ((emiten_code :: rest).map (scrape_company fetch)) := by
  have hrec : scrape_company fetch emiten_code =
      get_error_dict emiten_code (companyUrl emiten_code) msg := by
    simp [scrape_company, h]
  refine ⟨hrec, ?_, ?_, ?_, ?_, ?_, ?_, ?_, ?_, ?_⟩
  · rw [hrec]; rfl
  · rw [hrec]; rfl
  · rw [hrec]; rfl
  · rw [hrec]; rfl
  · rw [hrec]; rfl
  · rw [hrec]; rfl
  · rw [hrec]; rfl
  · rw [hrec]; rfl
  · rw [scrape_multiple_ok]

/-- Witness for `scrape_company_fetch_fault`: every fetch times out. -/
theorem scrape_company_fetch_fault_witness :
    timeoutFetch "AAA" = .error "Timeout" ∧
    (scrape_company timeoutFetch "AAA" =
        get_error_dict "AAA" (companyUrl "AAA") "Timeout" ∧
      (scrape_company timeoutFetch "AAA").Status = "Error: " ++ "Timeout" ∧
      (scrape_company timeoutFetch "AAA").Profile = "N/A" ∧
      (scrape_company timeoutFetch "AAA").Director = "N/A" ∧
      (scrape_company timeoutFetch "AAA").Comissioners = "N/A" ∧
      (scrape_company timeoutFetch "AAA").Audit_Committee = "N/A" ∧
      (scrape_company timeoutFetch "AAA").Shareholders = "N/A" ∧
      (scrape_company timeoutFetch "AAA").Subsidiary = "N/A" ∧
      (scrape_company timeoutFetch "AAA").Public_Accountant = "N/A" ∧
      (scrape_multiple timeoutFetch 3 ("AAA" :: ["BBB"])).2 =
        .ok (("AAA" :: ["BBB"]).map (scrape_company timeoutFetch))) :=
  ⟨rfl, scrape_company_fetch_fault timeoutFetch "AAA" "Timeout" ["BBB"] 3 rfl⟩

/-- Claim C7: the batch driver returns exactly one row per input identifier,
in order, and every row is either a success row or the all-sentinel error
record; no row is ever omitted. -/
theorem scrape_multiple_one_row_per_id (fetch : String → Except String Node)
    (delay : Nat) (ids : List String) :
    ∃ rows, (scrape_multiple fetch delay ids).2 = .ok rows ∧
      rows = ids.map (scrape_company fetch) ∧
      rows.length = ids.length ∧
      ∀ r ∈ rows, r.Status = "Success" ∨
        ∃ msg, r = get_error_dict r.Emiten_Code r.URL msg := by
  refine ⟨ids.map (scrape_company fetch), ?_, rfl, by simp, ?_⟩
  · rw [scrape_multiple_ok]
  · intro r hr
    rw [List.mem_map] at hr
    obtain ⟨id, _, hr⟩ := hr
    subst hr
    cases hf : fetch id with
    | ok soup => left; simp [scrape_company, hf]
    | error msg =>
      right
      exact ⟨msg, by simp [scrape_company, hf, get_error_dict]⟩

/-- Helper: for an arbitrary loop body — including one that raises an
exception escaping the per-identifier handling — the loop never emits the
session release itself, and the driver is active as soon as at least one
identifier was processed. -/
theorem scrape_multiple_loop_events (body : String → Except String Record)
    (delay n : Nat) :
    ∀ (ids : List String) (i : Nat) (st : BatchState),
      ∃ evs2,
        (scrape_multiple_loop body delay n ids i st).events = st.events ++ evs2 ∧
        Ev.quit ∉ evs2 ∧
        (scrape_multiple_loop body delay n ids i st).driverActive =
          (if ids.isEmpty then st.driverActive else true) := by
  intro ids
  induction ids with
  | nil =>
    intro i st
    exact ⟨[], by simp [scrape_multiple_loop], by simp, by simp [scrape_multiple_loop]⟩
  | cons e rest ih =>
    intro i st
    cases hb : body e with
    | error msg =>
      refine ⟨[Ev.process e], ?_, by simp, ?_⟩
      · simp [scrape_multiple_loop, hb]
      · simp [scrape_multiple_loop, hb]
    | ok data =>
      by_cases hin : i < n
      · obtain ⟨evs2, hev, hq, hd⟩ := ih (i + 1)
          ⟨true, st.events ++ [Ev.process e] ++ [Ev.sleep delay],
           st.results ++ [data], st.fault⟩
        refine ⟨[Ev.process e] ++ [Ev.sleep delay] ++ evs2, ?_, ?_, ?_⟩
        · simp only [scrape_multiple_loop, hb, hin, if_true]
          simpa [List.append_assoc] using hev
        · simp only [List.mem_append]
          rintro ((hh | hh) | hh) <;> first | simp at hh | exact hq hh
        · simp only [scrape_multiple_loop, hb, hin, if_true]
          simpa using hd
      · obtain ⟨evs2, hev, hq, hd⟩ := ih (i + 1)
          ⟨true, st.events ++ [Ev.process e], st.results ++ [data], st.fault⟩
        refine ⟨[Ev.process e] ++ evs2, ?_, ?_, ?_⟩
        · simp only [scrape_multiple_loop, hb, hin, if_false]
          simpa [List.append_assoc] using hev
        · simp only [List.mem_append]
          rintro (hh | hh) <;> first | simp at hh | exact hq hh
        · simp only [scrape_multiple_loop, hb, hin, if_false]
          simpa using hd

/-- Claim C8: on every exit of the batch run over a non-empty identifier
list — normal completion or an exceptional unwind part-way through — the
browser session is released exactly once, as the final event, before the
function returns or propagates. -/
theorem run_scrape_multiple_quit_once (body : String → Except String Record)
    (delay : Nat) (ids : List String) (h : ids ≠ []) :
    (run_scrape_multiple body delay ids).1.count Ev.quit = 1 ∧
    (run_scrape_multiple body delay ids).1.getLast? = some Ev.quit := by
  obtain ⟨evs2, hev, hq, hd⟩ :=
    scrape_multiple_loop_events body delay ids.length ids 1 ⟨false, [], [], none⟩
  have hne : ids.isEmpty = false := by
    cases ids
    · exact absurd rfl h
    · rfl
  simp only [hne, if_false] at hd
  have h1 : (run_scrape_multiple body delay ids).1 = evs2 ++ [Ev.quit] := by
    unfold run_scrape_multiple
    cases hft :
        (scrape_multiple_loop body delay ids.length ids 1 ⟨false, [], [], none⟩).fault <;>
      simp [hev, hd, hft]
  rw [h1]
  constructor
  · rw [List.count_append]
    rw [List.count_eq_zero.mpr hq]
    rfl
  · exact List.getLast?_concat _

/-- Witness for `run_scrape_multiple_quit_once`: three identifiers where
fetching the second raises an exception that escapes the per-identifier
handling. -/
theorem run_scrape_multiple_quit_once_witness :
    (["A", "B", "C"] : List String) ≠ [] ∧
    ((run_scrape_multiple faultingBody 3 ["A", "B", "C"]).1.count Ev.quit = 1 ∧
     (run_scrape_multiple faultingBody 3 ["A", "B", "C"]).1.getLast? =
       some Ev.quit) :=
  ⟨by decide, run_scrape_multiple_quit_once faultingBody 3 ["A", "B", "C"] (by decide)⟩

/-- Helper: starting at index `i` with `i + length = n + 1`, the paced event
sequence is the processing steps separated by single pacing pauses. -/
theorem pacedEvents_intersperse (delay n : Nat) :
    ∀ (ids : List String) (i : Nat), i + ids.length = n + 1 →
      pacedEvents delay n ids i =
        List.intersperse (Ev.sleep delay) (ids.map Ev.process) := by
  intro ids
  induction ids with
  | nil => intro i _; simp [pacedEvents]
  | cons e rest ih =>
    intro i h
    cases rest with
    | nil =>
      have hlen : ¬ i < n := by simp at h; omega
      simp [pacedEvents, hlen]
    | cons e2 rest2 =>
      have hlen : i < n := by simp at h; omega
      have hrec := ih (i + 1) (by simp at h ⊢; omega)
      have hstep : pacedEvents delay n (e :: e2 :: rest2) i =
          Ev.process e :: ((if i < n then [Ev.sleep delay] else []) ++
            pacedEvents delay n (e2 :: rest2) (i + 1)) := rfl
      rw [hstep, if_pos hlen, hrec]
      rfl

/-- Helper: the pacing pause occurs once between consecutive items of the
interspersed sequence: its count is the length minus one when no item is
itself a pause. -/
theorem count_sleep_intersperse (delay : Nat) :
    ∀ (l : List Ev), (∀ x ∈ l, x ≠ Ev.sleep delay) →
      (List.intersperse (Ev.sleep delay) l).count (Ev.sleep delay) = l.length - 1 := by
  intro l
  induction l with
  | nil => intro _; simp
  | cons a t ih =>
    intro h
    cases t with
    | nil =>
      have ha : (a == Ev.sleep delay) = false := by
        simpa using h a (by simp)
      simp [List.intersperse, List.count_cons, ha]
    | cons b t2 =>
      have ha : (a == Ev.sleep delay) = false := by
        simpa using h a (by simp)
      have hrec := ih (fun x hx => h x (by simp [hx]))
      show (a :: Ev.sleep delay ::
          List.intersperse (Ev.sleep delay) (b :: t2)).count (Ev.sleep delay) = _
      simp [List.count_cons, ha, hrec]

/-- Claim C9: the batch driver pauses for the fixed delay exactly once
between each pair of consecutive identifiers — the event trace is the
processing steps interspersed with single pauses, then the session release —
and hence pauses exactly `n - 1` times for `n` identifiers, never after the
last one. -/
theorem scrape_multiple_pacing (fetch : String → Except String Node)
    (delay : Nat) (ids : List String) :
    (scrape_multiple fetch delay ids).1 =
      List.intersperse (Ev.sleep delay) (ids.map Ev.process) ++
        (if ids.isEmpty then [] else [Ev.quit]) ∧
    (scrape_multiple fetch delay ids).1.count (Ev.sleep delay) = ids.length - 1 := by
  have hev : (scrape_multiple fetch delay ids).1 =
      List.intersperse (Ev.sleep delay) (ids.map Ev.process) ++
        (if ids.isEmpty then [] else [Ev.quit]) := by
    rw [scrape_multiple_ok]
    rw [pacedEvents_intersperse delay ids.length ids 1 (by omega)]
  refine ⟨hev, ?_⟩
  rw [hev, List.count_append]
  have h1 : (List.intersperse (Ev.sleep delay) (ids.map Ev.process)).count
      (Ev.sleep delay) = (ids.map Ev.process).length - 1 := by
    apply count_sleep_intersperse
    intro x hx
    rw [List.mem_map] at hx
    obtain ⟨y, _, hy⟩ := hx
    rw [← hy]
    simp
  have h2 : (if ids.isEmpty then ([] : List Ev) else [Ev.quit]).count
      (Ev.sleep delay) = 0 := by
    cases ids <;> simp [List.count_cons]
  rw [h1, h2, List.length_map]
  omega

end StocksScraping
